import Mathlib

/-!
Shallow embedding of the Signal Aggregation and Composite Scoring Engine of
the delta-intelligence-dashboard repository.

Sources embedded:
  - src/lib/signals.ts : scoreToStatus, fetchGdeltSignal (scoring slice),
    fetchAllSignals, calculateGlobalRisk, filterSignalsByRegion,
    calculateRegionalRisk
  - src/lib/utils.ts   : clamp
  - src/lib/logger.ts  : logSignalError, getRecentErrors, getErrorCount,
    getSourceErrorCount

Conventions of the embedding:
  - JavaScript numbers are modelled as exact rationals (the formulas involved
    stay within small exact values); stored integer scores are modelled as Int.
  - Math.round is modelled as jsRound, rounding half toward positive infinity,
    which is the JavaScript semantics.
  - Date-valued fields (lastUpdated, and the wall-clock part of error
    timestamps) carry no computational meaning for the claims and the Date in
    SignalFetchError is modelled as an integer timestamp; display-only string
    fields of Signal (name, explanation, baselineComparison, sourceUrl,
    sourceName) are omitted from the record, as the engine never reads them.
  - The module-level mutable array recentErrors of logger.ts is modelled by
    explicit state passing: each logger function takes the current log and
    returns the new one.
-/

namespace DeltaIntel

/-- status values of a Signal (src/types/index.ts). -/
inductive SignalStatus where
  | normal
  | elevated
  | high
  deriving DecidableEq, Repr

/-- confidence values of a Signal (src/types/index.ts). -/
inductive ConfidenceLevel where
  | low
  | medium
  | high
  deriving DecidableEq, Repr

/-- trend values of GlobalRisk (src/types/index.ts). -/
inductive TrendDirection where
  | up
  | down
  | stable
  deriving DecidableEq, Repr

/-- the fixed region enumeration (src/types/index.ts). -/
inductive Region where
  | global
  | northAmerica
  | europe
  | asiaPacific
  | middleEast
  | africa
  | southAmerica
  deriving DecidableEq, Repr

/-- a single source risk reading (src/types/index.ts, Signal).  Only the
fields the engine reads are modelled; display-only strings and the Date
field are omitted. -/
structure Signal where
  id : String
  region : Region
  status : SignalStatus
  score : ℤ
  confidence : ConfidenceLevel
  deriving DecidableEq, Repr

/-- derived aggregate (src/types/index.ts, GlobalRisk); lastUpdated omitted. -/
structure GlobalRisk where
  score : ℤ
  trend : TrendDirection
  signalCount : ℕ
  deriving DecidableEq, Repr

/-- JavaScript Math.round: round half toward positive infinity. -/
def jsRound (q : ℚ) : ℤ := ⌊q + 1 / 2⌋

/-- clamp from src/lib/utils.ts: Math.min(Math.max(value, min), max). -/
def clamp (value lo hi : ℚ) : ℚ := min (max value lo) hi

/-- scoreToStatus from src/lib/signals.ts lines 5-9.  The source applies it
to raw (possibly fractional) scores, so the domain is ℚ. -/
def scoreToStatus (score : ℚ) : SignalStatus :=
  if score < 35 then SignalStatus.normal
  else if score < 65 then SignalStatus.elevated
  else SignalStatus.high

/-- one parsed GDELT article (src/lib/signals.ts, interface GDELTArticle);
only the fields the scoring reads are modelled. -/
structure GDELTArticle where
  tone : ℚ
  sourcecountry : String
  deriving DecidableEq, Repr

/-- the score and status fields of the Signal literal built by
fetchGdeltSignal (src/lib/signals.ts lines 292-314), as a function of the
parsed article list: avgTone is the mean tone (0 when there are no
articles), the raw score is clamp(50 + avgTone * -5 + articles.length / 5,
0, 100), the stored status is scoreToStatus of the raw score and the stored
score is Math.round of the raw score.  The region and display fields of the
literal are not involved in scoring and are not modelled here. -/
def gdeltScoreStatus (articles : List GDELTArticle) : ℤ × SignalStatus :=
  let avgTone : ℚ :=
    if 0 < articles.length then
      (articles.foldl (fun sum a => sum + a.tone) 0) / (articles.length : ℚ)
    else 0
  let score : ℚ := clamp (50 + avgTone * (-5) + (articles.length : ℚ) / 5) 0 100
  (jsRound score, scoreToStatus score)

/-- outcome of one adapter call: the adapters of src/lib/signals.ts resolve
with a Signal on success and with null on any caught failure; a rejection is
still possible at the promise level and Promise.allSettled handles it. -/
inductive AdapterOutcome where
  | signal (s : Signal)
  | failed
  | threw
  deriving DecidableEq, Repr

/-- one entry of the array Promise.allSettled resolves with. -/
inductive SettledResult where
  | fulfilled (value : Option Signal)
  | rejected
  deriving DecidableEq, Repr

/-- how Promise.allSettled settles one adapter call. -/
def settle : AdapterOutcome → SettledResult
  | AdapterOutcome.signal s => SettledResult.fulfilled (some s)
  | AdapterOutcome.failed => SettledResult.fulfilled none
  | AdapterOutcome.threw => SettledResult.rejected

/-- the status test r.status === fulfilled of src/lib/signals.ts line 482. -/
def isFulfilled : SettledResult → Bool
  | SettledResult.fulfilled _ => true
  | SettledResult.rejected => false

/-- the projection r.value of src/lib/signals.ts line 483. -/
def settledValue : SettledResult → Option Signal
  | SettledResult.fulfilled v => v
  | SettledResult.rejected => none

/-- fetchAllSignals from src/lib/signals.ts lines 470-487.  The source runs
the seven fixed adapters under Promise.allSettled; the model abstracts each
adapter call by its outcome and keeps the filtering pipeline verbatim:
filter the fulfilled results, map to their values, filter out null. -/
def fetchAllSignals (outcomes : List AdapterOutcome) : List Signal :=
  let results := outcomes.map settle
  (((results.filter isFulfilled).map settledValue).filter Option.isSome).reduceOption

/-- the confidence weight expression of src/lib/signals.ts line 507:
confidence === high ? 2 : confidence === medium ? 1.5 : 1. -/
def confidenceWeight : ConfidenceLevel → ℚ
  | ConfidenceLevel.high => 2
  | ConfidenceLevel.medium => 3 / 2
  | ConfidenceLevel.low => 1

/-- the loop body of src/lib/signals.ts lines 506-510, accumulating
(totalWeight, weightedSum). -/
def riskStep (acc : ℚ × ℚ) (s : Signal) : ℚ × ℚ :=
  let w := confidenceWeight s.confidence
  (acc.1 + w, acc.2 + (s.score : ℚ) * w)

/-- calculateGlobalRisk from src/lib/signals.ts lines 492-526. -/
def calculateGlobalRisk (signals : List Signal) (previousScore : Option ℤ) :
    GlobalRisk :=
  if signals.length = 0 then
    { score := 0, trend := TrendDirection.stable, signalCount := 0 }
  else
    let totals := signals.foldl riskStep (0, 0)
    let score : ℤ := jsRound (totals.2 / totals.1)
    let trend : TrendDirection :=
      match previousScore with
      | none => TrendDirection.stable
      | some p =>
          if score > p + 3 then TrendDirection.up
          else if score < p - 3 then TrendDirection.down
          else TrendDirection.stable
    { score := score, trend := trend, signalCount := signals.length }

/-- filterSignalsByRegion from src/lib/signals.ts lines 531-534. -/
def filterSignalsByRegion (signals : List Signal) (region : Region) :
    List Signal :=
  if region = Region.global then signals
  else signals.filter (fun s => decide (s.region = region ∨ s.region = Region.global))

/-- calculateRegionalRisk from src/lib/signals.ts lines 539-545. -/
def calculateRegionalRisk (signals : List Signal) (region : Region) : ℤ :=
  let filtered := filterSignalsByRegion signals region
  if filtered.length = 0 then 0
  else jsRound ((filtered.foldl (fun acc s => acc + (s.score : ℚ)) 0) / (filtered.length : ℚ))

/-- error classification of src/lib/logger.ts. -/
inductive ErrorType where
  | network
  | parsing
  | validation
  | timeout
  | unknown
  deriving DecidableEq, Repr

/-- one error log entry (src/lib/logger.ts, SignalFetchError); the Date is
modelled as an integer timestamp. -/
structure SignalFetchError where
  signalId : String
  sourceName : String
  error : String
  timestamp : ℤ
  errorType : ErrorType
  deriving DecidableEq, Repr

/-- logSignalError from src/lib/logger.ts lines 19-48: push the entry, then
shift the oldest entry off when the length exceeds 50.  The console and
Sentry side effects are outside the data model. -/
def logSignalError (e : SignalFetchError) (log : List SignalFetchError) :
    List SignalFetchError :=
  let log' := log ++ [e]
  if log'.length > 50 then log'.drop 1 else log'

/-- getRecentErrors from src/lib/logger.ts lines 53-55: returns a copy of
the log array in its stored order. -/
def getRecentErrors (log : List SignalFetchError) : List SignalFetchError :=
  log

/-- getErrorCount from src/lib/logger.ts lines 67-69. -/
def getErrorCount (signalId : String) (log : List SignalFetchError) : ℕ :=
  (log.filter (fun e => e.signalId == signalId)).length

/-- getSourceErrorCount from src/lib/logger.ts lines 74-76. -/
def getSourceErrorCount (sourceName : String) (log : List SignalFetchError) : ℕ :=
  (log.filter (fun e => e.sourceName == sourceName)).length

/-- the state of the error log after a sequence of logSignalError calls,
starting from the empty module-level array. -/
def logAll (es : List SignalFetchError) : List SignalFetchError :=
  es.foldl (fun l e => logSignalError e l) []

/-- the signal an adapter outcome contributes: its Signal on success,
nothing on a returned null or a rejection. -/
def producedSignal : AdapterOutcome → Option Signal
  | AdapterOutcome.signal s => some s
  | AdapterOutcome.failed => none
  | AdapterOutcome.threw => none

/-- Modelled from the spec: regional score as section 4.4 words it — the
unweighted mean (rounded) of the scores of the signals whose region equals
R or equals global, and 0 when no signal matches.  Stated separately from
calculateRegionalRisk so the two can be compared. -/
def specRegionalRisk (signals : List Signal) (region : Region) : ℤ :=
  let matching := signals.filter (fun s => decide (s.region = region ∨ s.region = Region.global))
  if matching.length = 0 then 0
  else jsRound ((matching.map (fun s => (s.score : ℚ))).sum / (matching.length : ℚ))

/-- the high-confidence signal of the worked example in section 8 of the
spec (score 80, confidence high). -/
def exHigh80 : Signal :=
  { id := "ex-high", region := Region.global, status := SignalStatus.high,
    score := 80, confidence := ConfidenceLevel.high }

/-- the low-confidence signal of the worked example in section 8 of the
spec (score 20, confidence low). -/
def exLow20 : Signal :=
  { id := "ex-low", region := Region.global, status := SignalStatus.normal,
    score := 20, confidence := ConfidenceLevel.low }

/-- a concrete europe-region signal. -/
def sigEurope : Signal :=
  { id := "eu", region := Region.europe, status := SignalStatus.elevated,
    score := 40, confidence := ConfidenceLevel.medium }

/-- a concrete global-region signal. -/
def sigGlobal : Signal :=
  { id := "gl", region := Region.global, status := SignalStatus.normal,
    score := 20, confidence := ConfidenceLevel.high }

/-- a concrete asia-pacific-region signal. -/
def sigAsia : Signal :=
  { id := "ap", region := Region.asiaPacific, status := SignalStatus.high,
    score := 70, confidence := ConfidenceLevel.low }

/-- a concrete europe-region signal of score 100. -/
def sigEurope100 : Signal :=
  { id := "eu100", region := Region.europe, status := SignalStatus.high,
    score := 100, confidence := ConfidenceLevel.high }

/-- a concrete error log entry. -/
def errA : SignalFetchError :=
  { signalId := "sigA", sourceName := "srcA", error := "boom",
    timestamp := 0, errorType := ErrorType.network }

/-- a second, distinct error log entry. -/
def errB : SignalFetchError :=
  { signalId := "sigB", sourceName := "srcB", error := "bang",
    timestamp := 1, errorType := ErrorType.timeout }

/-- the loop of calculateGlobalRisk accumulates exactly the sum of the
weights and the weighted sum of the scores. -/
theorem foldl_riskStep_eq (signals : List Signal) (a b : ℚ) :
    signals.foldl riskStep (a, b) =
      (a + (signals.map (fun s => confidenceWeight s.confidence)).sum,
       b + (signals.map (fun s => (s.score : ℚ) * confidenceWeight s.confidence)).sum) := by
  induction signals generalizing a b with
  | nil => simp
  | cons s rest ih => simp [riskStep, ih, add_assoc]

/-- the reduce of calculateRegionalRisk accumulates exactly the sum of the
scores. -/
theorem foldl_score_eq (l : List Signal) (a : ℚ) :
    l.foldl (fun acc s => acc + (s.score : ℚ)) a = a + (l.map (fun s => (s.score : ℚ))).sum := by
  induction l generalizing a with
  | nil => simp
  | cons s rest ih => simp [ih, add_assoc]

/-- one logSignalError call commutes with logAll over an appended entry. -/
theorem logAll_append (es : List SignalFetchError) (e : SignalFetchError) :
    logAll (es ++ [e]) = logSignalError e (logAll es) := by
  simp [logAll, List.foldl_append]

/-- after any sequence of logSignalError calls on the initially empty log,
the log is exactly the chronological suffix of the last (up to) 50 entries. -/
theorem logAll_eq_drop (es : List SignalFetchError) :
    logAll es = es.drop (es.length - 50) := by
  induction es using List.reverseRecOn with
  | nil => rfl
  | append_singleton es e ih =>
    rw [logAll_append, ih]
    simp only [logSignalError, List.length_append, List.length_singleton]
    by_cases hlen : es.length ≤ 49
    · have h1 : es.length - 50 = 0 := by omega
      rw [h1, List.drop_zero]
      rw [if_neg (by omega)]
      have h2 : es.length + 1 - 50 = 0 := by omega
      rw [h2, List.drop_zero]
    · have hdl : (es.drop (es.length - 50)).length = 50 := by
        rw [List.length_drop]; omega
      rw [hdl, if_pos (by omega)]
      have h1le : 1 ≤ (es.drop (es.length - 50)).length := by
        rw [List.length_drop]; omega
      rw [List.drop_append_of_le_length h1le]
      have h2le : es.length + 1 - 50 ≤ es.length := by omega
      rw [List.drop_append_of_le_length h2le]
      congr 1
      rw [List.drop_drop]
      congr 1
      omega

/-- Claim C1: failure isolation of the fetch orchestrator.  For every
combination of per-adapter outcomes (a Signal, a returned null, or a thrown
exception), fetchAllSignals returns exactly the signals of the adapters
that produced one, in adapter order: a failing adapter loses only its own
entry, never aborts the batch or its siblings, and contributes no
placeholder entry. -/
theorem fetchAllSignals_exactly_produced (outcomes : List AdapterOutcome) :
    fetchAllSignals outcomes = outcomes.filterMap producedSignal := by
  induction outcomes with
  | nil => rfl
  | cons o rest ih =>
    cases o <;>
      simpa [fetchAllSignals, settle, isFulfilled, settledValue, producedSignal,
        List.filterMap_cons, List.reduceOption] using ih

/-- Claim C2: composite scoring formula.  For every non-empty signal list
the global score is round(sum of score times weight / sum of weight), where
the weight of a signal is a function of its confidence alone with
weight(high) > weight(medium) > weight(low); on the worked example
[score 80 confidence high, score 20 confidence low] (weights 2 and 1) the
composite score is 60. -/
theorem composite_score_formula (signals : List Signal) (p : Option ℤ) (h : signals ≠ []) :
    (calculateGlobalRisk signals p).score =
      jsRound ((signals.map (fun s => (s.score : ℚ) * confidenceWeight s.confidence)).sum /
        (signals.map (fun s => confidenceWeight s.confidence)).sum) ∧
    confidenceWeight ConfidenceLevel.medium < confidenceWeight ConfidenceLevel.high ∧
    confidenceWeight ConfidenceLevel.low < confidenceWeight ConfidenceLevel.medium ∧
    (calculateGlobalRisk [exHigh80, exLow20] none).score = 60 := by
  refine ⟨?_, by norm_num [confidenceWeight], by norm_num [confidenceWeight],
    by norm_num [calculateGlobalRisk, riskStep, confidenceWeight, jsRound, exHigh80, exLow20]⟩
  have hl : ¬ signals.length = 0 := by simpa [List.length_eq_zero] using h
  simp only [calculateGlobalRisk, foldl_riskStep_eq]
  simp [hl]

/-- Witness for claim C2, at the worked example of section 8 of the spec. -/
theorem composite_score_formula_witness :
    ([exHigh80, exLow20] : List Signal) ≠ [] ∧
    ((calculateGlobalRisk [exHigh80, exLow20] none).score =
      jsRound ((([exHigh80, exLow20] : List Signal).map
          (fun s => (s.score : ℚ) * confidenceWeight s.confidence)).sum /
        (([exHigh80, exLow20] : List Signal).map
          (fun s => confidenceWeight s.confidence)).sum) ∧
      confidenceWeight ConfidenceLevel.medium < confidenceWeight ConfidenceLevel.high ∧
      confidenceWeight ConfidenceLevel.low < confidenceWeight ConfidenceLevel.medium ∧
      (calculateGlobalRisk [exHigh80, exLow20] none).score = 60) :=
  ⟨by decide, composite_score_formula [exHigh80, exLow20] none (by decide)⟩

/-- Claim C3: empty-input degenerate case.  For every previous-score value
(including none), calculateGlobalRisk on the empty signal list is defined
and returns exactly score 0, trend stable, signalCount 0. -/
theorem calculateGlobalRisk_empty (p : Option ℤ) :
    calculateGlobalRisk [] p =
      { score := 0, trend := TrendDirection.stable, signalCount := 0 } := by
  cases p <;> rfl

/-- Claim C4 (code bug evaluation): fetchGdeltSignal computes the stored
status from the raw pre-rounding score but stores the rounded score.  On a
GDELT response of 10 articles each of tone 3.5 the raw score is 34.5, so
the produced Signal stores score 35 with status normal, while the fixed
band of the stored score 35 is elevated — the claimed banding invariant
fails at exactly the 35 boundary. -/
theorem gdelt_stored_status_drifts_from_stored_score :
    gdeltScoreStatus (List.replicate 10 { tone := 7 / 2, sourcecountry := "US" }) =
      (35, SignalStatus.normal) ∧
    scoreToStatus ((35 : ℤ) : ℚ) = SignalStatus.elevated := by
  constructor
  · norm_num [gdeltScoreStatus, clamp, jsRound, scoreToStatus, List.replicate, min_def, max_def]
  · norm_num [scoreToStatus]

/-- Claim C5: trend hysteresis.  For a non-empty signal list and previous
score p, the trend is up iff the new composite score exceeds p + 3, down
iff it is below p - 3, and stable otherwise (both boundaries inclusive of
stable); the band of 3 is applied identically in both directions. -/
theorem trend_hysteresis (S : List Signal) (p : ℤ) (h : S ≠ []) :
    ((calculateGlobalRisk S (some p)).trend = TrendDirection.up ↔
      (calculateGlobalRisk S (some p)).score > p + 3) ∧
    ((calculateGlobalRisk S (some p)).trend = TrendDirection.down ↔
      (calculateGlobalRisk S (some p)).score < p - 3) ∧
    ((calculateGlobalRisk S (some p)).trend = TrendDirection.stable ↔
      (p - 3 ≤ (calculateGlobalRisk S (some p)).score ∧
        (calculateGlobalRisk S (some p)).score ≤ p + 3)) := by
  have hl : ¬ S.length = 0 := by simpa [List.length_eq_zero] using h
  have hdef : (calculateGlobalRisk S (some p)).trend =
      (if (calculateGlobalRisk S (some p)).score > p + 3 then TrendDirection.up
       else if (calculateGlobalRisk S (some p)).score < p - 3 then TrendDirection.down
       else TrendDirection.stable) := by
    simp [calculateGlobalRisk, hl]
  rw [hdef]
  split_ifs with h1 h2 <;>
    refine ⟨?_, ?_, ?_⟩ <;> simp <;> omega

/-- Witness for claim C5, at one signal of score 80 and previous score 50. -/
theorem trend_hysteresis_witness :
    ([exHigh80] : List Signal) ≠ [] ∧
    (((calculateGlobalRisk [exHigh80] (some 50)).trend = TrendDirection.up ↔
        (calculateGlobalRisk [exHigh80] (some 50)).score > 50 + 3) ∧
      ((calculateGlobalRisk [exHigh80] (some 50)).trend = TrendDirection.down ↔
        (calculateGlobalRisk [exHigh80] (some 50)).score < 50 - 3) ∧
      ((calculateGlobalRisk [exHigh80] (some 50)).trend = TrendDirection.stable ↔
        (50 - 3 ≤ (calculateGlobalRisk [exHigh80] (some 50)).score ∧
          (calculateGlobalRisk [exHigh80] (some 50)).score ≤ 50 + 3))) :=
  ⟨by decide, trend_hysteresis [exHigh80] 50 (by decide)⟩

/-- Claim C6: order independence of aggregation.  For every permutation of
the signal list and every previous-score value, calculateGlobalRisk yields
the same GlobalRisk (same score, trend and signalCount). -/
theorem aggregate_order_independent (S S' : List Signal) (p : Option ℤ) (h : S.Perm S') :
    calculateGlobalRisk S p = calculateGlobalRisk S' p := by
  have hl := h.length_eq
  have hw : (S.map fun s => confidenceWeight s.confidence).sum =
      (S'.map fun s => confidenceWeight s.confidence).sum := (h.map _).sum_eq
  have hs : (S.map fun s => (s.score : ℚ) * confidenceWeight s.confidence).sum =
      (S'.map fun s => (s.score : ℚ) * confidenceWeight s.confidence).sum := (h.map _).sum_eq
  simp only [calculateGlobalRisk, foldl_riskStep_eq]
  rw [hl, hw, hs]

/-- Witness for claim C6, at a two-element swap. -/
theorem aggregate_order_independent_witness :
    ([exHigh80, exLow20] : List Signal).Perm [exLow20, exHigh80] ∧
    calculateGlobalRisk [exHigh80, exLow20] none =
      calculateGlobalRisk [exLow20, exHigh80] none :=
  ⟨List.Perm.swap exLow20 exHigh80 [],
    aggregate_order_independent _ _ none (List.Perm.swap exLow20 exHigh80 [])⟩

/-- Claim C7: regional filter semantics.  Filtering for global is the
identity; for any other region the result keeps exactly the signals whose
region matches or is global (a europe signal and a global signal both
survive a europe filter, an asia-pacific signal does not).  Purity is
inherent to the embedding: the function reads nothing but its arguments. -/
theorem filterSignalsByRegion_semantics (S : List Signal) (R : Region) (h : R ≠ Region.global) :
    filterSignalsByRegion S Region.global = S ∧
    (∀ x : Signal, x ∈ filterSignalsByRegion S R ↔
      x ∈ S ∧ (x.region = R ∨ x.region = Region.global)) ∧
    filterSignalsByRegion [sigEurope, sigGlobal, sigAsia] Region.europe = [sigEurope, sigGlobal] := by
  refine ⟨by simp [filterSignalsByRegion], ?_, by decide⟩
  intro x
  rw [filterSignalsByRegion, if_neg h]
  simp [List.mem_filter]

/-- Witness for claim C7, at the europe filter over the three-region list. -/
theorem filterSignalsByRegion_semantics_witness :
    Region.europe ≠ Region.global ∧
    filterSignalsByRegion [sigEurope, sigGlobal, sigAsia] Region.global =
      [sigEurope, sigGlobal, sigAsia] ∧
    (sigAsia ∈ filterSignalsByRegion [sigEurope, sigGlobal, sigAsia] Region.europe ↔
      sigAsia ∈ ([sigEurope, sigGlobal, sigAsia] : List Signal) ∧
        (sigAsia.region = Region.europe ∨ sigAsia.region = Region.global)) ∧
    filterSignalsByRegion [sigEurope, sigGlobal, sigAsia] Region.europe =
      [sigEurope, sigGlobal] :=
  ⟨by decide,
    (filterSignalsByRegion_semantics [sigEurope, sigGlobal, sigAsia] Region.europe (by decide)).1,
    (filterSignalsByRegion_semantics [sigEurope, sigGlobal, sigAsia] Region.europe (by decide)).2.1 sigAsia,
    (filterSignalsByRegion_semantics [sigEurope, sigGlobal, sigAsia] Region.europe (by decide)).2.2⟩

/-- Claim C8, counterexample: at region global the code shortcut returns
all signals, so a single europe signal of score 100 yields regional score
100, while the formula of the claim (mean over signals whose region equals
R or global) matches nothing and yields 0. -/
theorem regional_risk_global_shortcut :
    calculateRegionalRisk [sigEurope100] Region.global = 100 ∧
    specRegionalRisk [sigEurope100] Region.global = 0 ∧
    calculateRegionalRisk [sigEurope100] Region.global ≠
      specRegionalRisk [sigEurope100] Region.global := by
  have h1 : calculateRegionalRisk [sigEurope100] Region.global = 100 := by
    norm_num [calculateRegionalRisk, filterSignalsByRegion, jsRound, sigEurope100]
  have h2 : specRegionalRisk [sigEurope100] Region.global = 0 := by decide
  exact ⟨h1, h2, by rw [h1, h2]; decide⟩

/-- Claim C8 as amended: for every region other than global,
calculateRegionalRisk equals the rounded unweighted mean of the scores of
the signals whose region equals R or equals global, and 0 when no signal
matches (the spec-worded definition specRegionalRisk). -/
theorem regional_risk_matches_spec_offglobal (S : List Signal) (R : Region)
    (h : R ≠ Region.global) :
    calculateRegionalRisk S R = specRegionalRisk S R := by
  unfold calculateRegionalRisk specRegionalRisk
  rw [filterSignalsByRegion, if_neg h]
  simp only [foldl_score_eq]
  simp

/-- Witness for the amended claim C8, at the europe region. -/
theorem regional_risk_matches_spec_offglobal_witness :
    Region.europe ≠ Region.global ∧
    calculateRegionalRisk [sigEurope, sigGlobal, sigAsia] Region.europe =
      specRegionalRisk [sigEurope, sigGlobal, sigAsia] Region.europe :=
  ⟨by decide, regional_risk_matches_spec_offglobal _ _ (by decide)⟩

/-- Claim C9, counterexample: after logging errA then errB, the log read
back by getRecentErrors is [errA, errB] — its first element is the oldest
entry, not the most recent one, so the read-back order is chronological
(most-recent-last), not most-recent-first. -/
theorem errorLog_not_most_recent_first :
    getRecentErrors (logSignalError errB (logSignalError errA [])) = [errA, errB] ∧
    (getRecentErrors (logSignalError errB (logSignalError errA []))).head? ≠ some errB ∧
    errA ≠ errB := by
  decide

/-- Claim C9 as amended: after any sequence of logSignalError calls the
error log holds at most 50 entries and is exactly the chronological suffix
of the last (up to) 50 logged entries — the oldest entry is evicted first,
and the log reads back oldest-first (most-recent-last).  Queryability by
signal id and source name is the getErrorCount and getSourceErrorCount
functions over the same log. -/
theorem errorLog_bounded_chronological (es : List SignalFetchError) :
    (getRecentErrors (logAll es)).length ≤ 50 ∧
    getRecentErrors (logAll es) = es.drop (es.length - 50) := by
  refine ⟨?_, logAll_eq_drop es⟩
  rw [getRecentErrors, logAll_eq_drop, List.length_drop]
  omega

/-- Claim C10: first-cycle trend.  When no previous score is supplied, the
trend of the computed GlobalRisk is stable for every non-empty signal set,
no matter the composite score. -/
theorem first_cycle_trend_stable (S : List Signal) (h : S ≠ []) :
    (calculateGlobalRisk S none).trend = TrendDirection.stable := by
  cases S with
  | nil => exact absurd rfl h
  | cons s rest => rfl

/-- Witness for claim C10, at one signal of score 80. -/
theorem first_cycle_trend_stable_witness :
    ([exHigh80] : List Signal) ≠ [] ∧
    (calculateGlobalRisk [exHigh80] none).trend = TrendDirection.stable :=
  ⟨by decide, first_cycle_trend_stable [exHigh80] (by decide)⟩

end DeltaIntel
